import Mathlib

/-!
Verification of the Saga coordinator and Server loop of the ergo actor
runtime (package `gen`: `saga.go`, `types.go`, and the Server loop file).

The Go code is shallowly embedded: the mutable maps of a `SagaProcess`
(`txs`, `steps`, `jobs`) become association lists, the `*SagaTransaction`
pointers shared between `txs` and `steps` become indices into an explicit
heap (Go pointers never dangle, so the heap only grows), `time.Now().Unix()`
becomes an explicit `now : Int` argument, freshly minted references
(`MakeRef`, `MonitorProcess`) come from a counter in the state, and every
externally visible action (sends, calls, monitors, user-behavior callbacks)
is recorded in an event list.  User callbacks are external code; their
invocation is recorded as an event and their returned status is abstracted
as OK.
-/

namespace ErgoSaga

abbrev Pid := Nat
abbrev Ref := Nat
abbrev Value := Nat

/-- Lookup in an association list with Go map semantics. -/
def mlookup {α : Type} : List (Nat × α) → Nat → Option α
  | [], _ => none
  | (k, v) :: rest, key => if k = key then some v else mlookup rest key

/-- Insert/overwrite in an association list with Go map semantics
(`m[k] = v`). -/
def minsert {α : Type} : List (Nat × α) → Nat → α → List (Nat × α)
  | [], key, val => [(key, val)]
  | (k, v) :: rest, key, val =>
    if k = key then (key, val) :: rest else (k, v) :: minsert rest key val

/-- Key removal with Go map semantics (`delete(m, k)`); removes every
binding of the key so that it agrees with Go maps also on lists that were
not built key-uniquely. -/
def merase {α : Type} : List (Nat × α) → Nat → List (Nat × α)
  | [], _ => []
  | (k, v) :: rest, key =>
    if k = key then merase rest key else (k, v) :: merase rest key

/-- Set insertion for `map[etf.Pid]bool` used as a set (`m[p] = true`). -/
def sinsert (l : List Pid) (p : Pid) : List Pid :=
  if p ∈ l then l else p :: l

/-- Go's `uint(i)` conversion from a (possibly negative) `int64`. -/
def goUint (i : Int) : Nat := (i % (2 : Int) ^ 64).toNat

/-- Go's `int(u)` / `int64(u)` conversion from a `uint`: two's-complement
reinterpretation of the low 64 bits, negative from `2^63` upward. -/
def goInt (n : Nat) : Int :=
  if n % 2 ^ 64 < 2 ^ 63 then ((n % 2 ^ 64 : Nat) : Int)
  else ((n % 2 ^ 64 : Nat) : Int) - 2 ^ 64

/-- `defaultHopLimit = math.MaxUint16` from saga.go. -/
def defaultHopLimit : Nat := 65535

/-- `defaultLifespan = 60` from saga.go. -/
def defaultLifespan : Nat := 60

/-- `SagaTransactionOptions` from saga.go. -/
structure SagaTransactionOptions where
  HopLimit : Nat
  Lifespan : Nat
  TwoPhaseCommit : Bool
deriving DecidableEq

/-- `SagaStep` from saga.go.  The `Saga` target (`interface{}` holding a
pid / name / remote id) is modelled as a pid. -/
structure SagaStep where
  Saga : Pid
  Value : Value
  Timeout : Nat
  done : Bool
deriving DecidableEq

/-- `SagaTransaction` from saga.go.  `steps` is the transaction's own
step map, `jobs` its worker-pid set. -/
structure SagaTransaction where
  id : Ref
  options : SagaTransactionOptions
  origin : Ref
  monitor : Ref
  steps : List (Ref × SagaStep)
  jobs : List Pid
  arrival : Int
  parents : List Pid
deriving DecidableEq

/-- The Go zero value of `SagaTransaction` (what an unset field holds). -/
def zeroTx : SagaTransaction :=
  { id := 0
    options := { HopLimit := 0, Lifespan := 0, TwoPhaseCommit := false }
    origin := 0
    monitor := 0
    steps := []
    jobs := []
    arrival := 0
    parents := [] }

/-- `SagaJob` from saga.go. -/
structure SagaJob where
  ID : Ref
  TXID : Ref
  Value : Value
  saga : Pid
  commit : Bool
  worker : Pid
  done : Bool
deriving DecidableEq

/-- The Go zero value of `SagaJob`. -/
def zeroJob : SagaJob :=
  { ID := 0, TXID := 0, Value := 0, saga := 0, commit := false, worker := 0,
    done := false }

/-- `SagaOptions` from saga.go; `hasWorker` models `Worker != nil`. -/
structure SagaOptions where
  MaxTransactions : Nat
  hasWorker : Bool
deriving DecidableEq

/-- The state of a `SagaProcess`: its three maps plus an explicit heap of
`SagaTransaction` records (both `txs` and `steps` hold pointers into it,
exactly like the `*SagaTransaction` values in Go), the process pid, and
counters minting fresh references and heap pointers. -/
structure SagaState where
  options : SagaOptions
  heap : List (Nat × SagaTransaction)
  txs : List (Ref × Nat)
  steps : List (Ref × Nat)
  jobs : List (Pid × SagaJob)
  self : Pid
  nextRef : Nat
  nextPtr : Nat
deriving DecidableEq

/-- The inter-Saga wire messages of saga.go (`$saga_next`, `$saga_result`,
`$saga_interim`, `$saga_cancel`).  For `next`, the three `Options` map
entries are optional, mirroring the key-presence checks of the decoder;
for `cancel` the two references are kept in the positional order the code
writes them (admission replies write `{Origin, TransactionID, reason}`,
`CancelTransaction` writes `{tx.id, tx.origin, reason}`). -/
inductive SagaMsg where
  | next (sender : Pid) (origin : Ref) (txid : Ref) (value : Value)
      (parents : List Pid) (hopLimit : Option Int) (lifespan : Option Int)
      (twoPC : Option Bool)
  | result (sender : Pid) (txid : Ref) (origin : Ref) (value : Value)
  | interim (sender : Pid) (txid : Ref) (origin : Ref) (value : Value)
  | cancel (sender : Pid) (fst : Ref) (snd : Ref) (reason : String)
deriving DecidableEq

/-- Info messages reaching `Saga.HandleInfo`: a worker exit
(`MessageExit`), a monitor down (`MessageDown`), a decoded saga message,
or anything else. -/
inductive InfoMsg where
  | exitMsg (pid : Pid) (reason : String)
  | downMsg (ref : Ref) (pid : Pid) (reason : String)
  | saga (m : SagaMsg)
  | other (n : Nat)
deriving DecidableEq

/-- The externally visible actions of a Saga operation, in program order:
message sends, synchronous calls, monitor installation, worker handling,
and user-behavior callback invocations. -/
inductive Event where
  | send (dest : Pid) (m : SagaMsg)
  | call (dest : Pid) (m : SagaMsg)
  | monitor (target : Pid) (ref : Ref)
  | spawnWorker (pid : Pid)
  | link (pid : Pid)
  | castJobStart (dest : Pid) (jobId : Ref)
  | killWorker (pid : Pid)
  | callbackTxNew (id : Ref) (v : Value)
  | callbackTxResult (id : Ref) (fromStep : Ref) (v : Value)
  | callbackTxInterim (id : Ref) (fromStep : Ref) (v : Value)
  | callbackJobFailed (id : Ref) (reason : String)
  | callbackSagaInfo (m : InfoMsg)
deriving DecidableEq

/-- Result of `handleSagaRequest`: `nil`, `sagaStatusUnsupported` /
`ErrUnsupportedRequest`, the "transaction id mismatch in saga result"
error, or the nil-pointer dereference of the 2PC branch when the step is
missing from the transaction's own step map. -/
inductive ReqStatus where
  | ok
  | unsupported
  | errMismatch
  | panicked
deriving DecidableEq

/-- `SagaProcess.CancelTransaction` (saga.go): if the transaction exists,
post a `$saga_cancel` with payload `{tx.id, tx.origin, reason}` to the
Saga itself; the maps are untouched. -/
def CancelTransaction (s : SagaState) (id : Ref) (reason : String) :
    SagaState × List Event :=
  match mlookup s.txs id with
  | none => (s, [])
  | some ptr =>
    let tx := (mlookup s.heap ptr).getD zeroTx
    (s, [Event.send s.self (SagaMsg.cancel s.self tx.id tx.origin reason)])

/-- `SagaProcess.handleSagaRequest` (saga.go).  The `$saga_next` case
checks capacity (`len(sp.txs)+1 > int(MaxTransactions)`, the `int` cast
wrapping negative from `2^63`), then loop (only when the stored transaction has a
nonempty parents list), then admits; note that the admitted record's
`arrival` stays at its zero value and that the originator (empty parents)
branch allocates a record that is never stored in `txs`.  The
`$saga_cancel` case of the source is commented out, so it falls through to
`sagaStatusUnsupported`. -/
def handleSagaRequest (s : SagaState) (now : Int) :
    SagaMsg → SagaState × List Event × ReqStatus
  | .next sender origin txid value parents hopLimit lifespan twoPC =>
    if 0 < s.options.MaxTransactions ∧
        (s.txs.length : Int) + 1 > goInt s.options.MaxTransactions then
      (s, [Event.send sender (SagaMsg.cancel s.self origin txid ("exceed_tx_limit"))],
        .ok)
    else
      match mlookup s.txs txid with
      | none =>
        let txOptions : SagaTransactionOptions :=
          { HopLimit := (match hopLimit with | some h => goUint h | none => defaultHopLimit)
            Lifespan := (match lifespan with | some l => goUint l | none => defaultLifespan)
            TwoPhaseCommit := twoPC.getD false }
        let tx : SagaTransaction :=
          { id := txid, options := txOptions, origin := origin
            monitor := s.nextRef, steps := [], jobs := [], arrival := 0
            parents := (sender :: parents) }
        ({ s with
            heap := minsert s.heap s.nextPtr tx
            txs := minsert s.txs txid s.nextPtr
            nextPtr := s.nextPtr + 1
            nextRef := s.nextRef + 1 },
          [Event.monitor sender s.nextRef, Event.callbackTxNew txid value], .ok)
      | some ptr =>
        if ((mlookup s.heap ptr).getD zeroTx).parents.length > 0 then
          (s, [Event.send sender (SagaMsg.cancel s.self origin txid ("loop_detected"))],
            .ok)
        else
          let fresh : SagaTransaction :=
            { zeroTx with
                arrival := now
                parents := (sender :: parents)
                monitor := s.nextRef }
          ({ s with
              heap := minsert s.heap s.nextPtr fresh
              nextPtr := s.nextPtr + 1
              nextRef := s.nextRef + 1 },
            [Event.monitor sender s.nextRef, Event.callbackTxNew txid value], .ok)
  | .result _ txid origin value =>
    match mlookup s.steps origin with
    | none => (s, [], .ok)
    | some ptr =>
      let s1 := { s with steps := merase s.steps origin }
      let tx := (mlookup s.heap ptr).getD zeroTx
      if tx.id ≠ txid then (s1, [], .errMismatch)
      else if tx.options.TwoPhaseCommit = false then
        ({ s1 with heap := minsert s1.heap ptr { tx with steps := merase tx.steps origin } },
          [Event.callbackTxResult tx.id origin value], .ok)
      else
        match mlookup tx.steps origin with
        | none => (s1, [], .panicked)
        | some st =>
          ({ s1 with heap := (minsert s1.heap ptr
              { tx with steps := minsert tx.steps origin { st with done := true } }) },
            [Event.callbackTxResult tx.id origin value], .ok)
  | .interim _ _ origin value =>
    match mlookup s.steps origin with
    | none => (s, [], .ok)
    | some ptr =>
      (s, [Event.callbackTxInterim ((mlookup s.heap ptr).getD zeroTx).id origin value],
        .ok)
  | .cancel _ _ _ _ => (s, [], .unsupported)

/-- Result of `Next`: the minted step id, or one of its literal error
strings. -/
inductive NextOutcome where
  | okStep (id : Ref)
  | err (msg : String)
deriving DecidableEq

/-- `SagaProcess.Next` (saga.go): look up the transaction, check
`len(tx.steps) > int(HopLimit)` (the Go `int` cast wraps negative from
`2^63`), recompute the remaining lifespan as
`int64(Lifespan) - (now - arrival)` and cancel when it is below one
second, otherwise monitor the target (the monitor
reference doubles as the step id), send `$saga_next`, and record the step
in the transaction's step map and the Saga's step index. -/
def Next (s : SagaState) (id : Ref) (step : SagaStep) (now : Int) :
    SagaState × List Event × NextOutcome :=
  match mlookup s.txs id with
  | none => (s, [], .err ("unknown transaction"))
  | some ptr =>
    let tx := (mlookup s.heap ptr).getD zeroTx
    if (tx.steps.length : Int) > goInt tx.options.HopLimit then
      (s, [], .err ("exceeded hop limit"))
    else
      let step_Lifespan : Int := goInt tx.options.Lifespan - (now - tx.arrival)
      if step_Lifespan < 1 then
        let c := CancelTransaction s id ("exceeded lifespan")
        (c.1, c.2, .err ("exceeded lifespan. transaction canceled"))
      else
        let ref := s.nextRef
        let tx' := { tx with steps := minsert tx.steps ref step }
        ({ s with
            heap := minsert s.heap ptr tx'
            steps := minsert s.steps ref ptr
            nextRef := s.nextRef + 1 },
          [Event.monitor step.Saga ref,
            Event.send step.Saga (SagaMsg.next s.self ref tx.id step.Value tx.parents
              (some (tx.options.HopLimit : Int)) (some step_Lifespan)
              (some tx.options.TwoPhaseCommit))],
          .okStep ref)

/-- `SagaProcess.StartTransaction` (saga.go): mint a transaction id,
normalise zero options to their defaults, store the record, then `Next`
to this Saga itself; the id is returned regardless of `Next`'s outcome. -/
def StartTransaction (s : SagaState) (options : SagaTransactionOptions)
    (value : Value) (now : Int) : SagaState × List Event × Ref :=
  let txid := s.nextRef
  let opts : SagaTransactionOptions :=
    { options with
        HopLimit := if options.HopLimit = 0 then defaultHopLimit else options.HopLimit
        Lifespan := if options.Lifespan = 0 then defaultLifespan else options.Lifespan }
  let tx := { zeroTx with id := txid, arrival := now, options := opts }
  let s1 := { s with
      heap := minsert s.heap s.nextPtr tx
      txs := minsert s.txs txid s.nextPtr
      nextPtr := s.nextPtr + 1
      nextRef := s.nextRef + 1 }
  let r := Next s1 txid { Saga := s.self, Value := value, Timeout := 0, done := false } now
  (r.1, r.2.1, txid)

/-- Result of `SendResult` / `SendInterim`: success, a literal error
string, or the error propagated from a failing `Call` to the parent. -/
inductive SendOutcome where
  | ok
  | err (msg : String)
  | errCall
deriving DecidableEq

/-- `SagaProcess.SendResult` (saga.go): require the transaction and a
nonempty parents list, synchronously call the immediate parent with
`$saga_result`, and on success delete the transaction unless two-phase
commit is enabled.  `callOk` models whether the synchronous call to the
parent returns without error. -/
def SendResult (s : SagaState) (id : Ref) (result : Value) (callOk : Bool) :
    SagaState × List Event × SendOutcome :=
  match mlookup s.txs id with
  | none => (s, [], .err ("unknown transaction"))
  | some ptr =>
    let tx := (mlookup s.heap ptr).getD zeroTx
    match tx.parents with
    | [] => (s, [], .err ("no parent saga"))
    | parent :: _ =>
      let ev := Event.call parent (SagaMsg.result s.self tx.id tx.origin result)
      if callOk then
        if tx.options.TwoPhaseCommit = false then
          ({ s with txs := merase s.txs id }, [ev], .ok)
        else (s, [ev], .ok)
      else (s, [ev], .errCall)

/-- `SagaProcess.SendInterim` (saga.go): like `SendResult` but with
`$saga_interim` and never altering the maps. -/
def SendInterim (s : SagaState) (id : Ref) (interim : Value) (callOk : Bool) :
    SagaState × List Event × SendOutcome :=
  match mlookup s.txs id with
  | none => (s, [], .err ("unknown transaction"))
  | some ptr =>
    let tx := (mlookup s.heap ptr).getD zeroTx
    match tx.parents with
    | [] => (s, [], .err ("no parent saga"))
    | parent :: _ =>
      let ev := Event.call parent (SagaMsg.interim s.self tx.id tx.origin interim)
      if callOk then (s, [ev], .ok) else (s, [ev], .errCall)

/-- Result of `StartJob`. -/
inductive JobOutcome where
  | okJob (id : Ref)
  | err (msg : String)
  | errSpawn
  | errCast
deriving DecidableEq

/-- `SagaProcess.StartJob` (saga.go): require a configured worker and the
transaction, spawn and link a worker, build the job (its id minted by
`MakeRef`), cast the job to the worker (killing it when the cast fails),
and register the worker pid in the Saga's job map and the transaction's
job set.  `workerPid`, `spawnOk` and `castOk` model the externally
determined spawn result and cast delivery. -/
def StartJob (s : SagaState) (id : Ref) (value : Value) (workerPid : Pid)
    (spawnOk castOk : Bool) : SagaState × List Event × JobOutcome :=
  if s.options.hasWorker = false then (s, [], .err ("This saga has no worker"))
  else
    match mlookup s.txs id with
    | none => (s, [], .err ("unknown transaction"))
    | some ptr =>
      if spawnOk = false then (s, [], .errSpawn)
      else
        let tx := (mlookup s.heap ptr).getD zeroTx
        let jobId := s.nextRef
        let job : SagaJob :=
          { ID := jobId, TXID := id, Value := value, saga := s.self
            commit := tx.options.TwoPhaseCommit, worker := workerPid
            done := false }
        if castOk = false then
          ({ s with nextRef := s.nextRef + 1 },
            [Event.spawnWorker workerPid, Event.link workerPid,
              Event.castJobStart workerPid jobId, Event.killWorker workerPid],
            .errCast)
        else
          ({ s with
              nextRef := s.nextRef + 1
              jobs := minsert s.jobs workerPid job
              heap := (minsert s.heap ptr { tx with jobs := sinsert tx.jobs workerPid }) },
            [Event.spawnWorker workerPid, Event.link workerPid,
              Event.castJobStart workerPid jobId],
            .okJob jobId)

/-- `SagaProcess.checkTxDone` (saga.go), the completion predicate: with
two-phase commit disabled the step map and job set must be empty; with it
enabled every step must be `done` and, when jobs exist, every job looked
up in the Saga's job map must be `done` (the source dereferences that
lookup unconditionally; a missing job, impossible under the Saga's
invariants, is modelled as not done). -/
def checkTxDone (s : SagaState) (tx : SagaTransaction) : Bool :=
  if tx.options.TwoPhaseCommit = false then
    tx.steps.isEmpty && tx.jobs.isEmpty
  else
    if tx.steps.all (fun p => p.2.done) = false then false
    else if tx.jobs.isEmpty then true
    else tx.jobs.all (fun pid => ((mlookup s.jobs pid).getD zeroJob).done)

/-- `SagaProcess.handleSagaExit` (saga.go): an exit for a pid with a
registered job invokes `HandleJobFailed` with the exit reason when it is
not "normal", and with "no result" otherwise; an unknown pid is ignored.
The job map is not modified. -/
def handleSagaExit (s : SagaState) (pid : Pid) (reason : String) :
    SagaState × List Event :=
  match mlookup s.jobs pid with
  | none => (s, [])
  | some job =>
    if reason ≠ "normal" then (s, [Event.callbackJobFailed job.ID reason])
    else (s, [Event.callbackJobFailed job.ID ("no result")])

/-- The `ServerStatus` a `Saga.HandleInfo` invocation returns: OK, stop,
or a propagated error status. -/
inductive SrvStatus where
  | srvOk
  | srvStop
  | srvErr (r : ReqStatus)
deriving DecidableEq

/-- `Saga.HandleInfo` (saga.go): `MessageExit` goes to `handleSagaExit`,
`MessageDown` to the no-op `handleSagaDown`, a message decoding as a saga
tuple to `handleSagaRequest` (with `sagaStatusUnsupported` routed to the
user's `HandleSagaInfo`), and anything else to `HandleSagaInfo`. -/
def sagaHandleInfo (s : SagaState) (now : Int) :
    InfoMsg → SagaState × List Event × SrvStatus
  | .exitMsg pid reason =>
    let r := handleSagaExit s pid reason
    (r.1, r.2, .srvOk)
  | .downMsg _ _ _ => (s, [], .srvOk)
  | .saga m =>
    let r := handleSagaRequest s now m
    match r.2.2 with
    | .ok => (r.1, r.2.1, .srvOk)
    | .unsupported => (r.1, r.2.1 ++ [Event.callbackSagaInfo (.saga m)], .srvOk)
    | st => (r.1, r.2.1, .srvErr st)
  | .other n => (s, [Event.callbackSagaInfo (.other n)], .srvOk)

/-- What `Saga.Init` (saga.go) establishes before the loop runs: the empty
maps of a fresh `SagaProcess`, and the trap-exit flag, set by the final
`process.SetTrapExit(true)`. -/
structure SagaInitResult where
  state : SagaState
  trapExit : Bool
deriving DecidableEq

/-- `Saga.Init` (saga.go). -/
def sagaInit (opts : SagaOptions) (self : Pid) : SagaInitResult :=
  { state :=
      { options := opts, heap := [], txs := [], steps := [], jobs := []
        self := self, nextRef := 0, nextPtr := 0 }
    trapExit := true }

/-- Mailbox message shapes distinguished by the Server loop's dispatch
switch: a `$gen_call` triple, a `$gen_cast` pair, a `{Ref, Payload}`
reply, a `MessageExit` value (not an `etf.Tuple`), or any other term. -/
inductive Term where
  | genCall (fromPid : Pid) (ref : Ref) (payload : Nat)
  | genCast (payload : Nat)
  | reply (ref : Ref) (payload : Nat)
  | msgExit (p : Pid) (reason : String)
  | msgOther (n : Nat)
deriving DecidableEq

/-- One ready input of the Server loop's select: a graceful-exit request,
an internal stop reason from a callback task, a mailbox message, context
cancellation, or a direct request. -/
inductive LoopInput where
  | gracefulExit (fromPid : Pid) (reason : String)
  | internalStop (reason : String)
  | mailbox (t : Term)
  | contextDone
  | directReq (n : Nat)
deriving DecidableEq

/-- The action a Server loop iteration performs. -/
inductive LoopAction where
  | terminate (reason : String)
  | dispatchCall (fromPid : Pid) (ref : Ref) (payload : Nat)
  | dispatchCast (payload : Nat)
  | dispatchInfo (t : Term)
  | putSyncReply (ref : Ref) (payload : Nat)
  | directReply (n : Nat)
deriving DecidableEq

/-- Whether the loop returns (with the process's termination reason) or
keeps iterating. -/
inductive LoopResult where
  | exit (reason : String)
  | keepRunning
deriving DecidableEq

/-- The mailbox dispatch switch of `Server.ProcessLoop`: `$gen_call` and
`$gen_cast` tuples go to their callbacks, a `{Ref, Payload}` pair to the
sync-reply plexer, and everything else (including `MessageExit`, which is
not an `etf.Tuple`) to `HandleInfo`. -/
def dispatchMessage : Term → LoopAction
  | .genCall fromPid ref payload => .dispatchCall fromPid ref payload
  | .genCast payload => .dispatchCast payload
  | .reply ref payload => .putSyncReply ref payload
  | .msgExit p reason => .dispatchInfo (.msgExit p reason)
  | .msgOther n => .dispatchInfo (.msgOther n)

/-- One iteration of `Server.ProcessLoop` (the Server loop file): a
graceful exit terminates the process unless trap-exit is set, in which
case it is repackaged as a `MessageExit` and dispatched like a mailbox
message; a stop reason from a callback task and context cancellation
(reason "kill") invoke `Terminate` and return; mailbox messages are
dispatched; direct requests are answered inline. -/
def processLoopStep (trapExit : Bool) : LoopInput → List LoopAction × LoopResult
  | .gracefulExit fromPid reason =>
    if trapExit then ([dispatchMessage (.msgExit fromPid reason)], .keepRunning)
    else ([.terminate reason], .exit reason)
  | .internalStop reason => ([.terminate reason], .exit reason)
  | .mailbox t => ([dispatchMessage t], .keepRunning)
  | .contextDone => ([.terminate ("kill")], .exit ("kill"))
  | .directReq n => ([.directReply n], .keepRunning)

/-- The operations that can touch a Saga's state, closing the state space
for the removal invariant: the public `SagaProcess` methods and the
messages arriving through `HandleInfo`.  `now`, worker pids and
call/spawn/cast successes are external inputs. -/
inductive SagaOp where
  | opStartTransaction (options : SagaTransactionOptions) (value : Value) (now : Int)
  | opNext (id : Ref) (step : SagaStep) (now : Int)
  | opCancelTransaction (id : Ref) (reason : String)
  | opSendResult (id : Ref) (result : Value) (callOk : Bool)
  | opSendInterim (id : Ref) (interim : Value) (callOk : Bool)
  | opStartJob (id : Ref) (value : Value) (workerPid : Pid) (spawnOk castOk : Bool)
  | opInfo (m : InfoMsg) (now : Int)
  | opSetMaxTransactions (max : Nat)
deriving DecidableEq

/-- The state reached by one Saga operation (`HandleDirect`'s
`sagaSetMaxTransactions` is the last case). -/
def applyOp (s : SagaState) : SagaOp → SagaState
  | .opStartTransaction options value now => (StartTransaction s options value now).1
  | .opNext id step now => (Next s id step now).1
  | .opCancelTransaction id reason => (CancelTransaction s id reason).1
  | .opSendResult id result callOk => (SendResult s id result callOk).1
  | .opSendInterim id interim callOk => (SendInterim s id interim callOk).1
  | .opStartJob id value workerPid spawnOk castOk =>
    (StartJob s id value workerPid spawnOk castOk).1
  | .opInfo m now => (sagaHandleInfo s now m).1
  | .opSetMaxTransactions max =>
    { s with options := { s.options with MaxTransactions := max } }

/-! Concrete states used by counterexamples and witnesses. -/

/-- A sample step targeting pid 7 with value 9. -/
def stepA : SagaStep := { Saga := 7, Value := 9, Timeout := 0, done := false }

/-- A non-2PC transaction with parent 50 and one outstanding step. -/
def txC3 : SagaTransaction :=
  { zeroTx with
      id := 1
      options := { HopLimit := 65535, Lifespan := 60, TwoPhaseCommit := false }
      parents := [50]
      steps := [(5, stepA)] }

/-- A Saga holding `txC3`, with the step indexed. -/
def sC3 : SagaState :=
  { options := { MaxTransactions := 0, hasWorker := false }
    heap := [(0, txC3)], txs := [(1, 0)], steps := [(5, 0)], jobs := []
    self := 100, nextRef := 10, nextPtr := 1 }

/-- An idle Saga with no transactions. -/
def sC1 : SagaState :=
  { options := { MaxTransactions := 0, hasWorker := false }
    heap := [], txs := [], steps := [], jobs := []
    self := 100, nextRef := 40, nextPtr := 0 }

/-- The record admission stores for the `sC1` hop-limit input. -/
def txAdmittedC1 : SagaTransaction :=
  { zeroTx with
      id := 1
      options := { HopLimit := 2, Lifespan := 60, TwoPhaseCommit := false }
      origin := 7
      monitor := 40
      parents := [9, 2, 3] }

/-- A transaction with an upstream parent, held by `sC2`. -/
def txC2 : SagaTransaction := { zeroTx with id := 1, parents := [50] }

/-- A Saga holding `txC2`. -/
def sC2 : SagaState :=
  { options := { MaxTransactions := 0, hasWorker := false }
    heap := [(0, txC2)], txs := [(1, 0)], steps := [], jobs := []
    self := 100, nextRef := 0, nextPtr := 1 }

/-- An originator transaction: stored with an empty parents list. -/
def txC4 : SagaTransaction := { zeroTx with id := 2 }

/-- A Saga that originated `txC4`. -/
def sC4 : SagaState :=
  { options := { MaxTransactions := 0, hasWorker := false }
    heap := [(0, txC4)], txs := [(2, 0)], steps := [], jobs := []
    self := 100, nextRef := 20, nextPtr := 1 }

/-- A non-originator transaction used for the loop-detection witness. -/
def txC4w : SagaTransaction := { zeroTx with id := 2, parents := [50] }

/-- A Saga holding `txC4w`. -/
def sC4w : SagaState :=
  { options := { MaxTransactions := 0, hasWorker := false }
    heap := [(0, txC4w)], txs := [(2, 0)], steps := [], jobs := []
    self := 100, nextRef := 20, nextPtr := 1 }

/-- A non-2PC transaction with one outstanding step, for `saga_result`. -/
def txC5 : SagaTransaction :=
  { zeroTx with
      id := 1
      options := { HopLimit := 65535, Lifespan := 60, TwoPhaseCommit := false }
      parents := [50]
      steps := [(5, stepA)] }

/-- A Saga holding `txC5`, with step 5 indexed. -/
def sC5 : SagaState :=
  { options := { MaxTransactions := 0, hasWorker := false }
    heap := [(0, txC5)], txs := [(1, 0)], steps := [(5, 0)], jobs := []
    self := 100, nextRef := 10, nextPtr := 1 }

/-- A transaction that arrived at time 0 with the default 60s lifespan. -/
def txC6 : SagaTransaction :=
  { zeroTx with
      id := 3
      options := { HopLimit := 65535, Lifespan := 60, TwoPhaseCommit := false }
      parents := [50] }

/-- A Saga holding `txC6`. -/
def sC6 : SagaState :=
  { options := { MaxTransactions := 0, hasWorker := false }
    heap := [(0, txC6)], txs := [(3, 0)], steps := [], jobs := []
    self := 100, nextRef := 30, nextPtr := 1 }

/-- A registered job owned by worker pid 3. -/
def jobC7 : SagaJob :=
  { ID := 11, TXID := 1, Value := 9, saga := 100, commit := false, worker := 3,
    done := false }

/-- A Saga with `jobC7` registered under worker pid 3. -/
def sC7 : SagaState :=
  { options := { MaxTransactions := 0, hasWorker := true }
    heap := [], txs := [], steps := [], jobs := [(3, jobC7)]
    self := 100, nextRef := 0, nextPtr := 0 }

/-- An originator transaction (no parents) for the SendResult/SendInterim
error path. -/
def txC9 : SagaTransaction := { zeroTx with id := 4 }

/-- A Saga holding the originator transaction `txC9`. -/
def sC9 : SagaState :=
  { options := { MaxTransactions := 0, hasWorker := false }
    heap := [(0, txC9)], txs := [(4, 0)], steps := [], jobs := []
    self := 100, nextRef := 0, nextPtr := 1 }

/-! Association-list lemmas. -/

theorem mlookup_minsert_self {α : Type} (l : List (Nat × α)) (k : Nat) (v : α) :
    mlookup (minsert l k v) k = some v := by
  induction l with
  | nil => simp [minsert, mlookup]
  | cons hd tl ih =>
    obtain ⟨k', v'⟩ := hd
    by_cases h : k' = k
    · subst h; simp [minsert, mlookup]
    · simp [minsert, mlookup, h, ih]

theorem mlookup_minsert_ne {α : Type} (l : List (Nat × α)) (k k' : Nat) (v : α)
    (h : k' ≠ k) : mlookup (minsert l k v) k' = mlookup l k' := by
  induction l with
  | nil => simp [minsert, mlookup, Ne.symm h]
  | cons hd tl ih =>
    obtain ⟨k0, v0⟩ := hd
    by_cases h0 : k0 = k
    · subst h0
      simp [minsert, mlookup, Ne.symm h]
    · simp only [minsert, if_neg h0, mlookup]
      by_cases h1 : k0 = k'
      · simp [h1]
      · simp [h1, ih]

theorem mlookup_merase_self {α : Type} (l : List (Nat × α)) (k : Nat) :
    mlookup (merase l k) k = none := by
  induction l with
  | nil => simp [merase, mlookup]
  | cons hd tl ih =>
    obtain ⟨k0, v0⟩ := hd
    by_cases h0 : k0 = k
    · simp [merase, h0, ih]
    · simp [merase, h0, mlookup, ih]

theorem mlookup_merase_ne {α : Type} (l : List (Nat × α)) (k k' : Nat)
    (h : k' ≠ k) : mlookup (merase l k) k' = mlookup l k' := by
  induction l with
  | nil => simp [merase]
  | cons hd tl ih =>
    obtain ⟨k0, v0⟩ := hd
    by_cases h0 : k0 = k
    · subst h0
      simp [merase, mlookup, Ne.symm h, ih]
    · simp only [merase, if_neg h0, mlookup]
      by_cases h1 : k0 = k'
      · simp [h1]
      · simp [h1, ih]

/-! State-preservation lemmas for the removal invariant. -/

theorem CancelTransaction_fst (s : SagaState) (id : Ref) (reason : String) :
    (CancelTransaction s id reason).1 = s := by
  simp only [CancelTransaction]
  split <;> rfl

theorem Next_txs (s : SagaState) (id : Ref) (step : SagaStep) (now : Int) :
    (Next s id step now).1.txs = s.txs := by
  simp only [Next]
  split
  · rfl
  · split
    · rfl
    · split
      · simp [CancelTransaction_fst]
      · rfl

theorem StartTransaction_txs (s : SagaState) (options : SagaTransactionOptions)
    (value : Value) (now : Int) :
    (StartTransaction s options value now).1.txs = minsert s.txs s.nextRef s.nextPtr := by
  unfold StartTransaction
  simp [Next_txs]

theorem SendInterim_fst (s : SagaState) (id : Ref) (interim : Value) (callOk : Bool) :
    (SendInterim s id interim callOk).1 = s := by
  simp only [SendInterim]
  split
  · rfl
  · split
    · rfl
    · split <;> rfl

theorem StartJob_txs (s : SagaState) (id : Ref) (value : Value) (workerPid : Pid)
    (spawnOk castOk : Bool) :
    (StartJob s id value workerPid spawnOk castOk).1.txs = s.txs := by
  simp only [StartJob]
  split
  · rfl
  · split
    · rfl
    · split
      · rfl
      · split <;> rfl

theorem handleSagaExit_fst (s : SagaState) (pid : Pid) (reason : String) :
    (handleSagaExit s pid reason).1 = s := by
  simp only [handleSagaExit]
  split
  · rfl
  · split <;> rfl

theorem handleSagaRequest_txs_isSome (s : SagaState) (now : Int) (m : SagaMsg)
    (id : Ref) (h : (mlookup s.txs id).isSome) :
    (mlookup (handleSagaRequest s now m).1.txs id).isSome := by
  cases m with
  | next sender origin txid value parents hopLimit lifespan twoPC =>
    simp only [handleSagaRequest]
    split
    · exact h
    · split
      · by_cases hid : id = txid
        · subst hid
          simp [mlookup_minsert_self]
        · simpa [mlookup_minsert_ne _ _ _ _ hid] using h
      · split
        · exact h
        · exact h
  | result sender txid origin value =>
    simp only [handleSagaRequest]
    split
    · exact h
    · split
      · exact h
      · split
        · exact h
        · split
          · exact h
          · exact h
  | interim sender txid origin value =>
    simp only [handleSagaRequest]
    split <;> exact h
  | cancel sender fst snd reason => exact h

theorem sagaHandleInfo_saga_fst (s : SagaState) (now : Int) (m : SagaMsg) :
    (sagaHandleInfo s now (.saga m)).1 = (handleSagaRequest s now m).1 := by
  simp only [sagaHandleInfo]
  split <;> rfl

/-- Every non-removal branch of `SendResult` keeps the transaction map;
removal happens exactly on a successful parent call with two-phase commit
disabled. -/
theorem SendResult_txs_cases (s : SagaState) (id : Ref) (result : Value)
    (callOk : Bool) :
    (SendResult s id result callOk).1.txs = s.txs ∨
    ((SendResult s id result callOk).1.txs = merase s.txs id ∧ callOk = true ∧
      ∃ ptr, mlookup s.txs id = some ptr ∧
        ((mlookup s.heap ptr).getD zeroTx).parents ≠ [] ∧
        ((mlookup s.heap ptr).getD zeroTx).options.TwoPhaseCommit = false) := by
  simp only [SendResult]
  split
  · left; rfl
  next ptr hptr =>
    split
    · left; rfl
    next parent rest hpar =>
      split
      next hcall =>
        split
        next h2pc =>
          right
          exact ⟨rfl, hcall, ptr, hptr, by simp [hpar], h2pc⟩
        · left; rfl
      · left; rfl

theorem sagaHandleInfo_txs_isSome (s : SagaState) (now : Int) (m : InfoMsg)
    (id : Ref) (h : (mlookup s.txs id).isSome) :
    (mlookup (sagaHandleInfo s now m).1.txs id).isSome := by
  cases m with
  | exitMsg pid reason =>
    have hfst : (sagaHandleInfo s now (.exitMsg pid reason)).1 = s := by
      simp only [sagaHandleInfo]
      exact handleSagaExit_fst s pid reason
    rw [hfst]; exact h
  | downMsg ref pid reason => exact h
  | saga m' =>
    rw [sagaHandleInfo_saga_fst]
    exact handleSagaRequest_txs_isSome s now m' id h
  | other n => exact h

/-! Claim theorems. -/

/-- Claim C1 (code bug): the admission path of `handleSagaRequest` for
`$saga_next` performs no hop-limit gate.  At a concrete input with
`HopLimit = 2` and two incoming parents (hop = 3 > 2), the transaction is
nevertheless stored, the sender is monitored and `HandleTxNew` is
invoked, and no `saga_cancel` with reason "exceed_hop_limit" is sent —
against the specified gate 3 of admission. -/
theorem hop_limit_not_checked_at_admission :
    handleSagaRequest sC1 0 (.next 9 7 1 0 [2, 3] (some 2) (some 60) (some false)) =
      ({ sC1 with
          heap := [(0, txAdmittedC1)]
          txs := [(1, 0)]
          nextPtr := 1
          nextRef := 41 },
        [Event.monitor 9 40, Event.callbackTxNew 1 0], ReqStatus.ok) ∧
    txAdmittedC1.options.HopLimit < [2, 3].length + 1 := by
  constructor
  · decide
  · decide

/-- Claim C2 (code bug): the `$saga_cancel` case of `handleSagaRequest`
is commented out in the source, so a received `saga_cancel` for a held
transaction yields `sagaStatusUnsupported`; `Saga.HandleInfo` then routes
the message to the user's `HandleSagaInfo`.  `HandleTxCancel` is not
invoked, no cancel is forwarded downstream, nothing is demonitored, and
the transaction stays in the map. -/
theorem saga_cancel_reception_unsupported :
    handleSagaRequest sC2 0 (.cancel 50 1 0 ("requested")) =
      (sC2, [], ReqStatus.unsupported) ∧
    sagaHandleInfo sC2 0 (.saga (.cancel 50 1 0 ("requested"))) =
      (sC2, [Event.callbackSagaInfo (.saga (.cancel 50 1 0 ("requested")))],
        SrvStatus.srvOk) ∧
    mlookup sC2.txs 1 = some 0 := by
  refine ⟨by decide, by decide, by decide⟩

/-- Claim C3, counterexample: `SendResult` on a transaction that still
has an outstanding step (so `checkTxDone` is false) removes the
transaction from the map, and the only emitted event is the result call
to the parent — no cancel was received or forwarded.  This falsifies the
claim that removal happens only after a cancel or with the completion
predicate holding. -/
theorem tx_removed_without_completion_predicate :
    mlookup (SendResult sC3 1 42 true).1.txs 1 = none ∧
    checkTxDone sC3 txC3 = false ∧
    (SendResult sC3 1 42 true).2.1 = [Event.call 50 (SagaMsg.result 100 1 0 42)] := by
  refine ⟨by decide, by decide, by decide⟩

/-- Claim C3 (amended): over every Saga operation, a transaction present
in the map before and absent after can only have been removed by a
`SendResult` for that id whose synchronous call to the parent succeeded,
on a transaction with a nonempty parents list and two-phase commit
disabled; the completion predicate is not consulted, and no cancel path
removes transactions (the cancel handler is not implemented). -/
theorem tx_removal_only_by_send_result (s : SagaState) (op : SagaOp) (id : Ref)
    (hpre : (mlookup s.txs id).isSome)
    (hpost : mlookup (applyOp s op).txs id = none) :
    ∃ r, op = SagaOp.opSendResult id r true ∧
      ∃ ptr, mlookup s.txs id = some ptr ∧
        ((mlookup s.heap ptr).getD zeroTx).parents ≠ [] ∧
        ((mlookup s.heap ptr).getD zeroTx).options.TwoPhaseCommit = false := by
  cases op with
  | opStartTransaction options value now =>
    exfalso
    rw [show applyOp s (.opStartTransaction options value now) =
        (StartTransaction s options value now).1 from rfl] at hpost
    rw [StartTransaction_txs] at hpost
    by_cases hid : id = s.nextRef
    · subst hid
      rw [mlookup_minsert_self] at hpost
      cases hpost
    · rw [mlookup_minsert_ne s.txs s.nextRef id s.nextPtr hid] at hpost
      rw [hpost] at hpre
      simp at hpre
  | opNext id' step now =>
    exfalso
    rw [show applyOp s (.opNext id' step now) = (Next s id' step now).1 from rfl,
      Next_txs] at hpost
    rw [hpost] at hpre
    simp at hpre
  | opCancelTransaction id' reason =>
    exfalso
    rw [show applyOp s (.opCancelTransaction id' reason) =
        (CancelTransaction s id' reason).1 from rfl,
      CancelTransaction_fst] at hpost
    rw [hpost] at hpre
    simp at hpre
  | opSendResult id' result callOk =>
    rw [show applyOp s (.opSendResult id' result callOk) =
        (SendResult s id' result callOk).1 from rfl] at hpost
    rcases SendResult_txs_cases s id' result callOk with
      heq | ⟨heq, hcall, ptr, hptr, hpar, h2pc⟩
    · exfalso
      rw [heq] at hpost
      rw [hpost] at hpre
      simp at hpre
    · rw [heq] at hpost
      by_cases hid : id = id'
      · subst hid
        subst hcall
        exact ⟨result, rfl, ptr, hptr, hpar, h2pc⟩
      · exfalso
        rw [mlookup_merase_ne s.txs id' id hid] at hpost
        rw [hpost] at hpre
        simp at hpre
  | opSendInterim id' interim callOk =>
    exfalso
    rw [show applyOp s (.opSendInterim id' interim callOk) =
        (SendInterim s id' interim callOk).1 from rfl,
      SendInterim_fst] at hpost
    rw [hpost] at hpre
    simp at hpre
  | opStartJob id' value workerPid spawnOk castOk =>
    exfalso
    rw [show applyOp s (.opStartJob id' value workerPid spawnOk castOk) =
        (StartJob s id' value workerPid spawnOk castOk).1 from rfl] at hpost
    rw [StartJob_txs] at hpost
    rw [hpost] at hpre
    simp at hpre
  | opInfo m now =>
    exfalso
    have hs := sagaHandleInfo_txs_isSome s now m id hpre
    rw [show applyOp s (.opInfo m now) = (sagaHandleInfo s now m).1 from rfl] at hpost
    rw [hpost] at hs
    simp at hs
  | opSetMaxTransactions max =>
    exfalso
    rw [show applyOp s (.opSetMaxTransactions max) =
        { s with options := { s.options with MaxTransactions := max } } from rfl] at hpost
    rw [hpost] at hpre
    simp at hpre

/-- Claim C3, witness: the amended statement applied to the concrete
removal performed by `SendResult` on `sC3`. -/
theorem tx_removal_only_by_send_result_witness :
    ∃ r, SagaOp.opSendResult 1 42 true = SagaOp.opSendResult 1 r true ∧
      ∃ ptr, mlookup sC3.txs 1 = some ptr ∧
        ((mlookup sC3.heap ptr).getD zeroTx).parents ≠ [] ∧
        ((mlookup sC3.heap ptr).getD zeroTx).options.TwoPhaseCommit = false := by
  exact tx_removal_only_by_send_result sC3 (SagaOp.opSendResult 1 42 true) 1
    (by decide) (by decide)

/-- Claim C4, counterexample: a `$saga_next` whose transaction id is
already present but whose stored record has an empty parents list (the
receiving Saga originated it, as after `StartTransaction`) does not get a
"loop_detected" cancel: `HandleTxNew` is invoked instead, falsifying the
claim for this class of inputs. -/
theorem loop_not_detected_for_originator :
    mlookup sC4.txs 2 = some 0 ∧
    (handleSagaRequest sC4 1000 (.next 77 8 2 5 [] none none none)).2.1 =
      [Event.monitor 77 20, Event.callbackTxNew 2 5] := by
  refine ⟨by decide, by decide⟩

/-- Claim C4 (amended): for every incoming `saga_next` whose transaction
id is already present with a nonempty parents list (the receiving Saga is
not its originator), and which passes the capacity gate, the Saga sends a
`saga_cancel` with reason "loop_detected" to the sender and drops the
message — the state (hence the stored transaction) is unchanged and
`HandleTxNew` is not invoked. -/
theorem loop_detected_for_nonoriginator (s : SagaState) (now : Int) (sender : Pid)
    (origin txid : Ref) (v : Value) (parents : List Pid)
    (hopLimit lifespan : Option Int) (twoPC : Option Bool) (ptr : Nat)
    (tx : SagaTransaction)
    (hcap : ¬(0 < s.options.MaxTransactions ∧
      (s.txs.length : Int) + 1 > goInt s.options.MaxTransactions))
    (htx : mlookup s.txs txid = some ptr)
    (hheap : mlookup s.heap ptr = some tx)
    (hpar : tx.parents ≠ []) :
    handleSagaRequest s now (.next sender origin txid v parents hopLimit lifespan twoPC) =
      (s, [Event.send sender (SagaMsg.cancel s.self origin txid ("loop_detected"))],
        ReqStatus.ok) := by
  have hlen : 0 < tx.parents.length := List.length_pos.mpr hpar
  simp [handleSagaRequest, hcap, htx, hheap, hlen]

/-- Claim C4, witness: the amended statement at a Saga holding a
non-originator transaction. -/
theorem loop_detected_for_nonoriginator_witness :
    handleSagaRequest sC4w 0 (.next 9 7 2 5 [] none none none) =
      (sC4w, [Event.send 9 (SagaMsg.cancel sC4w.self 7 2 ("loop_detected"))],
        ReqStatus.ok) := by
  exact loop_detected_for_nonoriginator sC4w 0 9 7 2 5 [] none none none 0 txC4w
    (by decide) (by decide) (by decide) (by decide)

/-- Claim C5: on `$saga_result`, an unknown step id is ignored; a known
step whose transaction's id differs from the embedded TxRef reports the
mismatch error (no callback); otherwise the step is deleted from the
transaction when two-phase commit is disabled or marked done when
enabled, and `HandleTxResult(tx.id, step-id, value)` is invoked. -/
theorem saga_result_processing (s : SagaState) (now : Int) (sender : Pid)
    (txid origin : Ref) (v : Value) :
    (mlookup s.steps origin = none →
      handleSagaRequest s now (.result sender txid origin v) = (s, [], .ok)) ∧
    (∀ ptr tx, mlookup s.steps origin = some ptr → mlookup s.heap ptr = some tx →
      tx.id ≠ txid →
      handleSagaRequest s now (.result sender txid origin v) =
        ({ s with steps := merase s.steps origin }, [], ReqStatus.errMismatch)) ∧
    (∀ ptr tx, mlookup s.steps origin = some ptr → mlookup s.heap ptr = some tx →
      tx.id = txid →
      (tx.options.TwoPhaseCommit = false →
        handleSagaRequest s now (.result sender txid origin v) =
          ({ s with
              steps := merase s.steps origin
              heap := (minsert s.heap ptr { tx with steps := merase tx.steps origin }) },
            [Event.callbackTxResult tx.id origin v], .ok)) ∧
      (∀ st, tx.options.TwoPhaseCommit = true → mlookup tx.steps origin = some st →
        handleSagaRequest s now (.result sender txid origin v) =
          ({ s with
              steps := merase s.steps origin
              heap := (minsert s.heap ptr
                { tx with steps := minsert tx.steps origin { st with done := true } }) },
            [Event.callbackTxResult tx.id origin v], .ok))) := by
  refine ⟨?_, ?_, ?_⟩
  · intro h
    simp [handleSagaRequest, h]
  · intro ptr tx hptr htx hne
    simp [handleSagaRequest, hptr, htx, hne]
  · intro ptr tx hptr htx hid
    constructor
    · intro h2pc
      subst hid
      simp [handleSagaRequest, hptr, htx, h2pc]
    · intro st h2pc hst
      subst hid
      simp [handleSagaRequest, hptr, htx, h2pc, hst]

/-- Claim C5, witness: the non-2PC path at a Saga holding `txC5` with
step 5 indexed. -/
theorem saga_result_processing_witness :
    handleSagaRequest sC5 0 (.result 50 1 5 42) =
      ({ sC5 with
          steps := merase sC5.steps 5
          heap := (minsert sC5.heap 0 { txC5 with steps := merase txC5.steps 5 }) },
        [Event.callbackTxResult txC5.id 5 42], .ok) := by
  exact ((saga_result_processing sC5 0 50 1 5 42).2.2 0 txC5
    (by decide) (by decide) (by decide)).1 (by decide)

/-- Claim C6, counterexample: with a remaining lifespan of exactly one
second (`Lifespan = 60`, `arrival = 0`, `now = 59`), `Next` does not
cancel: it sends `$saga_next`, records the step, and returns the minted
step id — falsifying "when it is ≤ 1 second, Next cancels". -/
theorem next_dispatches_at_remaining_one_second :
    goInt txC6.options.Lifespan - (59 - txC6.arrival) ≤ 1 ∧
    (Next sC6 3 stepA 59).2.2 = NextOutcome.okStep 30 ∧
    (Next sC6 3 stepA 59).2.1 =
      [Event.monitor 7 30,
        Event.send 7 (SagaMsg.next 100 30 3 9 [50] (some 65535) (some 1) (some false))] ∧
    mlookup (Next sC6 3 stepA 59).1.steps 30 = some 0 := by
  refine ⟨by decide, by decide, by decide, by decide⟩

/-- Claim C6 (amended): for every call to `Next` on an existing
transaction that passes the step-count check, when the recomputed
remaining lifespan `Lifespan − (now − arrival)` is below one second
(that is, ≤ 0), `Next` cancels the transaction — posting the
`$saga_cancel{tx.id, tx.origin, "exceeded lifespan"}` to the Saga
itself — and returns an error, sending no `saga_next` and recording no
step (the state is unchanged). -/
theorem next_cancels_on_expired_lifespan (s : SagaState) (id : Ref) (step : SagaStep)
    (now : Int) (ptr : Nat) (tx : SagaTransaction)
    (htx : mlookup s.txs id = some ptr) (hheap : mlookup s.heap ptr = some tx)
    (hhop : ¬(tx.steps.length : Int) > goInt tx.options.HopLimit)
    (hexp : goInt tx.options.Lifespan - (now - tx.arrival) < 1) :
    Next s id step now =
      (s, [Event.send s.self (SagaMsg.cancel s.self tx.id tx.origin ("exceeded lifespan"))],
        NextOutcome.err ("exceeded lifespan. transaction canceled")) := by
  simp [Next, CancelTransaction, htx, hheap, hhop, hexp]

/-- Claim C6, witness: the amended statement with the lifespan exactly
exhausted (`now = 60`). -/
theorem next_cancels_on_expired_lifespan_witness :
    Next sC6 3 stepA 60 =
      (sC6, [Event.send sC6.self
          (SagaMsg.cancel sC6.self txC6.id txC6.origin ("exceeded lifespan"))],
        NextOutcome.err ("exceeded lifespan. transaction canceled")) := by
  exact next_cancels_on_expired_lifespan sC6 3 stepA 60 0 txC6
    (by decide) (by decide) (by decide) (by decide)

/-- Claim C7: an exit message for a linked worker whose job is still
registered, with an abnormal reason (≠ "normal"), makes `HandleInfo`
invoke `HandleJobFailed` with that job's id and the exit reason. -/
theorem job_failed_on_abnormal_exit (s : SagaState) (now : Int) (pid : Pid)
    (reason : String) (job : SagaJob)
    (hjob : mlookup s.jobs pid = some job) (habn : reason ≠ "normal") :
    sagaHandleInfo s now (.exitMsg pid reason) =
      (s, [Event.callbackJobFailed job.ID reason], SrvStatus.srvOk) := by
  simp [sagaHandleInfo, handleSagaExit, hjob, habn]

/-- Claim C7, witness: a worker panic for the registered job of `sC7`. -/
theorem job_failed_on_abnormal_exit_witness :
    sagaHandleInfo sC7 0 (.exitMsg 3 ("panicked")) =
      (sC7, [Event.callbackJobFailed jobC7.ID ("panicked")], SrvStatus.srvOk) := by
  exact job_failed_on_abnormal_exit sC7 0 3 ("panicked") jobC7 (by decide) (by decide)

/-- Claim C8: when the process context of a Server-based actor is
cancelled, `ProcessLoop` invokes the behavior's `Terminate` callback and
exits returning the reason "kill", regardless of the trap-exit flag. -/
theorem context_cancel_terminates_kill (trapExit : Bool) :
    processLoopStep trapExit .contextDone =
      ([LoopAction.terminate ("kill")], LoopResult.exit ("kill")) := rfl

/-- Claim C9: `SendResult` and `SendInterim` on an existing transaction
whose parents list is empty (an originator transaction) return the
"no parent saga" error and leave the whole state — transaction, step and
job maps — unchanged. -/
theorem send_result_and_interim_no_parent (s : SagaState) (id : Ref) (r i : Value)
    (callOk : Bool) (ptr : Nat) (tx : SagaTransaction)
    (htx : mlookup s.txs id = some ptr) (hheap : mlookup s.heap ptr = some tx)
    (hpar : tx.parents = []) :
    SendResult s id r callOk = (s, [], SendOutcome.err ("no parent saga")) ∧
    SendInterim s id i callOk = (s, [], SendOutcome.err ("no parent saga")) := by
  constructor
  · simp [SendResult, htx, hheap, hpar]
  · simp [SendInterim, htx, hheap, hpar]

/-- Claim C9, witness: the originator transaction of `sC9`. -/
theorem send_result_and_interim_no_parent_witness :
    SendResult sC9 4 42 true = (sC9, [], SendOutcome.err ("no parent saga")) ∧
    SendInterim sC9 4 43 true = (sC9, [], SendOutcome.err ("no parent saga")) := by
  exact send_result_and_interim_no_parent sC9 4 42 43 true 0 txC9
    (by decide) (by decide) (by decide)

/-- Claim C10: `Saga.Init` enables trap-exit before the loop runs, and
with trap-exit enabled a graceful-exit signal from a linked peer is
repackaged as a `MessageExit` and dispatched to `HandleInfo` — the loop
keeps running instead of terminating. -/
theorem saga_traps_exit_to_handle_info (opts : SagaOptions) (self fromPid : Pid)
    (reason : String) :
    (sagaInit opts self).trapExit = true ∧
    processLoopStep (sagaInit opts self).trapExit (.gracefulExit fromPid reason) =
      ([LoopAction.dispatchInfo (Term.msgExit fromPid reason)], LoopResult.keepRunning) :=
  ⟨rfl, rfl⟩

end ErgoSaga
